import Mathlib

/-!
Verification of `src/scripts/convert_xfractint_maps.py`.

The script converts xfractint `.map` files (lines of whitespace-separated
integer RGB triples) into fixed-size palettes.  We embed its pure core:

* `parse_map_file` — the per-line parser (Python `str.strip`, `str.split`,
  `int(...)`, clamping into `[0,255]`);
* `sample_colors` — the resampler (modelled over `ℚ`; Python's
  `round(x, 3)` is round-half-to-even, modelled exactly on rationals;
  the `ZeroDivisionError` raised by `t = i / (n - 1)` when `n = 1` is
  modelled by `Option`, with `none` for the exception);
* `name_to_rust_const` / `name_to_display_name` — identifier derivation
  (`pathlib.PurePath.stem`, `str.upper`, `re.sub("[^A-Z0-9]", "_", ·)`,
  `str.replace`, `str.title`, the special-case table);
* `mainLoop` — the orchestrator's per-file loop: files whose parsed
  sequence has fewer than 2 colors are reported (third component) and
  not emitted.

Strings are modelled as `List Char`, restricted to the ASCII fragment of
Python's text semantics (the repository's inputs are ASCII).
-/

/- Batteries marks the arithmetic on `Rat` `@[irreducible]`, which stops
`decide` from evaluating concrete rational computations; restore the
default reducibility locally so concrete palettes can be computed. -/
attribute [local semireducible] Rat.mul Rat.add Rat.sub Rat.inv

namespace XfMaps

/-- ASCII whitespace recognised by Python `str.strip()` / `str.split()`. -/
def pyIsSpace (c : Char) : Bool :=
  c = ' ' || c = '\t' || c = '\n' || c = '\r' || c = '\x0b' || c = '\x0c'

/-- Python `str.strip()`: drop leading and trailing whitespace. -/
def pyStrip (s : List Char) : List Char :=
  ((s.dropWhile pyIsSpace).reverse.dropWhile pyIsSpace).reverse

/-- Worker for `pySplit`; `cur` holds the current word reversed. -/
def splitAux : List Char → List Char → List (List Char)
  | [], cur => if cur = [] then [] else [cur.reverse]
  | c :: rest, cur =>
    if pyIsSpace c then
      if cur = [] then splitAux rest [] else cur.reverse :: splitAux rest []
    else splitAux rest (c :: cur)

/-- Python `str.split()` with no argument: split on whitespace runs,
producing no empty fields. -/
def pySplit (s : List Char) : List (List Char) := splitAux s []

/-- Value of a decimal digit character, if it is one. -/
def pyDigitVal (c : Char) : Option Nat :=
  if c.isDigit then some (c.toNat - '0'.toNat) else none

/-- Digits after the first one, per Python `int()` base-10 syntax:
single underscores are allowed between digits only. -/
def pyDigitsGo : Nat → List Char → Option Nat
  | acc, [] => some acc
  | _, ['_'] => none
  | acc, '_' :: c :: rest =>
    match pyDigitVal c with
    | some d => pyDigitsGo (acc * 10 + d) rest
    | none => none
  | acc, c :: rest =>
    match pyDigitVal c with
    | some d => pyDigitsGo (acc * 10 + d) rest
    | none => none

/-- An unsigned digit group: at least one digit, then `pyDigitsGo`. -/
def pyDigitsStart : List Char → Option Nat
  | [] => none
  | c :: rest =>
    match pyDigitVal c with
    | some d => pyDigitsGo d rest
    | none => none

/-- Python `int(s)` for base 10 (ASCII fragment): optional surrounding
whitespace, an optional `+`/`-` sign, then digits with optional single
underscore separators.  `none` models `ValueError`. -/
def pyInt (s : List Char) : Option Int :=
  match pyStrip s with
  | '+' :: rest => (pyDigitsStart rest).map (fun m => (m : Int))
  | '-' :: rest => (pyDigitsStart rest).map (fun m => -(m : Int))
  | other => (pyDigitsStart other).map (fun m => (m : Int))

/-- Clamping `max(0, min(255, x))` from the source. -/
def clamp255 (x : Int) : Int := max 0 (min 255 x)

/-- One iteration of the parsing loop in `parse_map_file`: `none` when the
line contributes no color (blank, fewer than 3 fields, or `int()` raised
`ValueError` on one of the first three fields). -/
def parseLine (line : List Char) : Option (Int × Int × Int) :=
  let s := pyStrip line
  if s = [] then none
  else
    let parts := pySplit s
    if 3 ≤ parts.length then
      match pyInt (parts.getD 0 []), pyInt (parts.getD 1 []), pyInt (parts.getD 2 []) with
      | some r, some g, some b => some (clamp255 r, clamp255 g, clamp255 b)
      | _, _, _ => none
    else none

/-- The function `parse_map_file`, with the file given as its list of lines. -/
def parse_map_file (lines : List (List Char)) : List (Int × Int × Int) :=
  lines.filterMap parseLine

/-- A parsed color: an integer RGB triple. -/
abbrev Color := Int × Int × Int

/-- A normalized color, each channel a rational (modelling the floats). -/
abbrev QColor := ℚ × ℚ × ℚ

/-- Floor of a rational (the denominator is positive, so `Int.fdiv` of
numerator by denominator is the floor). -/
def qfloor (q : ℚ) : ℤ := q.num.fdiv (q.den : ℤ)

/-- Python `int(x)` applied to a float: truncation toward zero. -/
def pyTrunc (q : ℚ) : ℤ := q.num.tdiv (q.den : ℤ)

/-- Rounding to the nearest integer, ties to even — CPython's `round`. -/
def roundHalfEven (q : ℚ) : ℤ :=
  let n := qfloor q
  let r := q - (n : ℚ)
  if r < 1 / 2 then n
  else if 1 / 2 < r then n + 1
  else if n % 2 = 0 then n else n + 1

/-- Python `round(q, 3)`. -/
def round3 (q : ℚ) : ℚ := ((roundHalfEven (q * 1000) : ℤ) : ℚ) / 1000

/-- Normalization of one color without rounding, as in the `len == 1`
branch of `sample_colors`: `(c[0]/255.0, c[1]/255.0, c[2]/255.0)`. -/
def qnorm (c : Color) : QColor :=
  ((c.1 : ℚ) / 255, (c.2.1 : ℚ) / 255, (c.2.2 : ℚ) / 255)

/-- Normalization of one color followed by rounding each channel to
3 decimals, as produced by the interpolation loop at zero `frac`. -/
def normRound3 (c : Color) : QColor :=
  (round3 ((c.1 : ℚ) / 255), round3 ((c.2.1 : ℚ) / 255), round3 ((c.2.2 : ℚ) / 255))

/-- Body of the sampling loop of `sample_colors` for `n ≠ 1`:
`t = i/(n-1)`, `idx_f = t*(len-1)`, `idx = int(idx_f)`, `frac = idx_f - idx`,
then linear interpolation (or the final color when `idx + 1 = len`).
`getD`'s default is never reached: `idx` and `idx + 1` are in bounds
whenever the branch guarding them is taken. -/
def interpVal (colors : List Color) (n i : Nat) : QColor :=
  let t : ℚ := (i : ℚ) / ((n : ℚ) - 1)
  let idxF : ℚ := t * ((colors.length : ℚ) - 1)
  let idx : Nat := (pyTrunc idxF).toNat
  let frac : ℚ := idxF - (idx : ℚ)
  if idx + 1 < colors.length then
    let c1 := colors.getD idx (0, 0, 0)
    let c2 := colors.getD (idx + 1) (0, 0, 0)
    (round3 (((c1.1 : ℚ) + ((c2.1 : ℚ) - (c1.1 : ℚ)) * frac) / 255),
     round3 (((c1.2.1 : ℚ) + ((c2.2.1 : ℚ) - (c1.2.1 : ℚ)) * frac) / 255),
     round3 (((c1.2.2 : ℚ) + ((c2.2.2 : ℚ) - (c1.2.2 : ℚ)) * frac) / 255))
  else
    let c := colors.getD idx (0, 0, 0)
    (round3 ((c.1 : ℚ) / 255), round3 ((c.2.1 : ℚ) / 255), round3 ((c.2.2 : ℚ) / 255))

/-- One iteration of the sampling loop.  When `n = 1` the statement
`t = i / (n - 1)` divides by zero and Python raises `ZeroDivisionError`,
modelled by `none`. -/
def interpStep (colors : List Color) (n i : Nat) : Option QColor :=
  if n = 1 then none else some (interpVal colors n i)

/-- The sampling loop of `sample_colors` over the given index list,
stopping with `none` if any step raises. -/
def sampleLoop (colors : List Color) (n : Nat) : List Nat → Option (List QColor)
  | [] => some []
  | i :: rest =>
    match interpStep colors n i, sampleLoop colors n rest with
    | some c, some cs => some (c :: cs)
    | _, _ => none

/-- The function `sample_colors`; `none` models the `ZeroDivisionError` raised when the
general branch runs with `n = 1`. -/
def sample_colors (colors : List Color) (n : Nat) : Option (List QColor) :=
  match colors with
  | [] => some (List.replicate n ((0 : ℚ), (0 : ℚ), (0 : ℚ)))
  | [c] => some (List.replicate n (qnorm c))
  | a :: b :: rest => sampleLoop (a :: b :: rest) n (List.range n)

/-- A rational is a 3-decimal value: an integer multiple of `1/1000`. -/
def rounded3 (q : ℚ) : Prop := (q * 1000).den = 1

instance (q : ℚ) : Decidable (rounded3 q) :=
  inferInstanceAs (Decidable ((q * 1000).den = 1))

/-- Worker splitting a path on `/`, keeping empty segments. -/
def splitSlashAux : List Char → List Char → List (List Char)
  | [], cur => [cur.reverse]
  | c :: rest, cur =>
    if c = '/' then cur.reverse :: splitSlashAux rest []
    else splitSlashAux rest (c :: cur)

/-- Python `pathlib.PurePath(s).name` (POSIX flavour): the last path component,
after dropping empty and `.` components. -/
def pathName (s : List Char) : List Char :=
  ((splitSlashAux s []).filter (fun c => ¬ (c = [] ∨ c = ['.']))).getLastD []

/-- CPython's `PurePath.stem` rule applied to a path's `name`: cut at the
last `.` when its index `i` satisfies `0 < i < len - 1`, else keep all. -/
def stemCore (nm : List Char) : List Char :=
  match nm.reverse.findIdx? (fun c => c = '.') with
  | none => nm
  | some j =>
    let i := nm.length - 1 - j
    if 0 < i ∧ i < nm.length - 1 then nm.take i else nm

/-- Python `pathlib.PurePath(filename).stem`. -/
def pyStem (filename : List Char) : List Char := stemCore (pathName filename)

/-- Python `re.sub("[^A-Z0-9]", "_", s)`: the pattern is a single-character
class, so the substitution is a character-wise map. -/
def reSubNonAlnum (s : List Char) : List Char :=
  s.map (fun c => if ('A' ≤ c ∧ c ≤ 'Z') ∨ ('0' ≤ c ∧ c ≤ '9') then c else '_')

/-- The function `name_to_rust_const`: uppercase the stem (`str.upper`, ASCII
fragment), replace non-`[A-Z0-9]` by `_`, and put `XF_` in front. -/
def name_to_rust_const (filename : List Char) : List Char :=
  'X' :: 'F' :: '_' :: reSubNonAlnum ((pyStem filename).map Char.toUpper)

/-- The transformation of §4.3 of the spec, stated as the spec words it:
take the stem, uppercase each character, and replace every character
outside `[A-Z0-9]` with an underscore, then put the `XF_` tag in front. -/
def specSymChar (c : Char) : Char :=
  let u := Char.toUpper c
  if ('A' ≤ u ∧ u ≤ 'Z') ∨ ('0' ≤ u ∧ u ≤ '9') then u else '_'

/-- The symbolic name as §4.3 of the spec words it. -/
def specSymbolicName (filename : List Char) : List Char :=
  'X' :: 'F' :: '_' :: (pyStem filename).map specSymChar

/-- Python `s.replace(a, b)` for single characters. -/
def replaceChar (a b : Char) (s : List Char) : List Char :=
  s.map (fun c => if c = a then b else c)

/-- The `special` override table of `name_to_display_name`. -/
def specialTable : List (List Char × List Char) :=
  [("altern".data, "Alternating Grey".data),
   ("chroma".data, "Chromatic".data),
   ("defaultw".data, "Default White".data),
   ("firestrm".data, "Fire Storm".data),
   ("froth3".data, "Froth 3".data),
   ("froth6".data, "Froth 6".data),
   ("froth316".data, "Froth 3-16".data),
   ("froth616".data, "Froth 6-16".data),
   ("gamma1".data, "Gamma 1".data),
   ("gamma2".data, "Gamma 2".data),
   ("glasses1".data, "3D Glasses 1".data),
   ("glasses2".data, "3D Glasses 2".data),
   ("goodega".data, "Good EGA".data),
   ("headach2".data, "Headache 2".data),
   ("landscap".data, "Landscape".data),
   ("paintjet".data, "PaintJet".data)]

/-- Dictionary lookup `special[stem]` (with `stem in special` as guard). -/
def specialLookup (stem : List Char) : Option (List Char) :=
  (specialTable.find? (fun p => p.1 = stem)).map (fun p => p.2)

/-- Worker for `pyTitle`: the flag records whether the previous character
was a cased letter. -/
def pyTitleGo : Bool → List Char → List Char
  | _, [] => []
  | prevCased, c :: rest =>
    if c.isAlpha then
      (if prevCased then Char.toLower c else Char.toUpper c) :: pyTitleGo true rest
    else c :: pyTitleGo false rest

/-- Python `str.title()` (ASCII fragment). -/
def pyTitle (s : List Char) : List Char := pyTitleGo false s

/-- The function `name_to_display_name`: replace `_` and `-` by spaces, but return the
override table's entry when the lowercased stem is one of its keys,
otherwise title-case the replaced stem. -/
def name_to_display_name (filename : List Char) : List Char :=
  let nm := replaceChar '-' ' ' (replaceChar '_' ' ' (pyStem filename))
  let stem := (pyStem filename).map Char.toLower
  match specialLookup stem with
  | some v => v
  | none => pyTitle nm

/-- One source file handed to `main`'s loop: its basename and lines. -/
structure MapFile where
  fname : List Char
  contents : List (List Char)

/-- The orchestrator's acceptance query: at least 2 parsed colors. -/
def acceptFile (f : MapFile) : Bool :=
  decide (2 ≤ (parse_map_file f.contents).length)

/-- The data handed to the external emitter for one accepted file: the
symbolic name, the display name, and the sampled palette (this is what
`generate_rust_const` serializes, and what `consts` accumulates). -/
def emitEntry (f : MapFile) : List Char × List Char × Option (List QColor) :=
  (name_to_rust_const f.fname, name_to_display_name f.fname,
   sample_colors (parse_map_file f.contents) 5)

/-- The per-file loop of `main`: the first component models `consts`, the
second `const_names` (the registry), the third the reported skips
(`"Skipping …: not enough colors"`). -/
def mainLoop : List MapFile →
    List (List Char × List Char × Option (List QColor)) × List (List Char) × List (List Char)
  | [] => ([], [], [])
  | f :: rest =>
    let colors := parse_map_file f.contents
    let r := mainLoop rest
    if colors.length < 2 then (r.1, r.2.1, f.fname :: r.2.2)
    else (emitEntry f :: r.1, name_to_rust_const f.fname :: r.2.1, r.2.2)

/-- The clamped channels lie in `[0, 255]`. -/
theorem clamp255_mem (x : Int) : 0 ≤ clamp255 x ∧ clamp255 x ≤ 255 := by
  unfold clamp255
  refine ⟨le_max_left 0 _, max_le (by norm_num) (min_le_left _ _)⟩

/-- C1: the spec requires `N = 1` to be special-cased so that no division
by zero happens and the first color (normalized) is returned.  The code
has no such guard: with two or more colors and `n = 1`, the loop body
evaluates `t = 0 / (1 - 1)` and raises `ZeroDivisionError` (modelled by
`none`); only the empty and single-color branches escape.  The claim is
right about the intent and the code is wrong at this input. -/
theorem c1_n1_division_by_zero :
    sample_colors [(0, 0, 0), (255, 255, 255)] 1 = none
    ∧ sample_colors [] 1 = some [((0 : ℚ), 0, 0)]
    ∧ sample_colors [(255, 0, 128)] 1 = some [((1 : ℚ), 0, 128 / 255)] := by
  refine ⟨by decide, by decide, by decide⟩

/-- C4: the length invariant that `sample_colors` returns exactly `N` colors
for every `N ≥ 1` and every input fails at `N = 1` with two or more
colors: the code raises `ZeroDivisionError` (modelled by `none`) and
returns no list at all, instead of a list of length 1. -/
theorem c4_length_violation :
    sample_colors [(10, 20, 30), (40, 50, 60)] 1 = none := by
  decide

/-- C10: the parser accepts Python `int()` syntax, which is wider than
plain digit strings: underscore separators and leading signs parse, so
`"2_5 +7 -3"` contributes the clamped color `(25, 7, 0)` instead of
being skipped, even though none of its three fields is a plain digit
string. -/
theorem c10_int_syntax :
    parse_map_file ["2_5 +7 -3".data] = [(25, 7, 0)]
    ∧ pyInt ("2_5".data) = some 25
    ∧ pyInt ("+7".data) = some 7
    ∧ pyInt ("-3".data) = some (-3)
    ∧ ("2_5".data.all Char.isDigit) = false
    ∧ ("+7".data.all Char.isDigit) = false
    ∧ ("-3".data.all Char.isDigit) = false := by
  refine ⟨by decide, by decide, by decide, by decide, by decide, by decide, by decide⟩

/-- C5: parser behavior line by line, covering every input line.  A blank
line contributes nothing; a line whose first three whitespace-delimited
fields parse as integers contributes exactly one color, each channel
clamped into `[0, 255]`, with any further fields ignored; every other
line is skipped silently — whether it has fewer than three fields, or
has three or more fields of which one of the first three fails `int()`
(together with the success clause this is exhaustive for non-blank
lines); `"10 20 30 ; comment"` parses as `(10, 20, 30)`;
`"abc def ghi"` is skipped; `"300 -5 128"` clamps to `(255, 0, 128)`. -/
theorem c5_parser_behavior :
    (∀ line : List Char, pyStrip line = [] → parseLine line = none)
    ∧ (∀ (line : List Char) (r g b : Int),
        3 ≤ (pySplit (pyStrip line)).length →
        pyInt ((pySplit (pyStrip line)).getD 0 []) = some r →
        pyInt ((pySplit (pyStrip line)).getD 1 []) = some g →
        pyInt ((pySplit (pyStrip line)).getD 2 []) = some b →
        parseLine line = some (clamp255 r, clamp255 g, clamp255 b)
        ∧ 0 ≤ clamp255 r ∧ clamp255 r ≤ 255
        ∧ 0 ≤ clamp255 g ∧ clamp255 g ≤ 255
        ∧ 0 ≤ clamp255 b ∧ clamp255 b ≤ 255)
    ∧ (∀ line : List Char, pyStrip line ≠ [] →
        (pySplit (pyStrip line)).length < 3 → parseLine line = none)
    ∧ (∀ line : List Char, pyStrip line ≠ [] →
        3 ≤ (pySplit (pyStrip line)).length →
        (pyInt ((pySplit (pyStrip line)).getD 0 []) = none
         ∨ pyInt ((pySplit (pyStrip line)).getD 1 []) = none
         ∨ pyInt ((pySplit (pyStrip line)).getD 2 []) = none) →
        parseLine line = none)
    ∧ parse_map_file ["10 20 30 ; comment".data] = [(10, 20, 30)]
    ∧ parse_map_file ["abc def ghi".data] = []
    ∧ parse_map_file ["300 -5 128".data] = [(255, 0, 128)] := by
  refine ⟨?_, ?_, ?_, ?_, by decide, by decide, by decide⟩
  · intro line h
    simp [parseLine, h]
  · intro line r g b hlen hr hg hb
    have hne : ¬ pyStrip line = [] := by
      intro h
      rw [h] at hlen
      simp [pySplit, splitAux] at hlen
    refine ⟨?_, (clamp255_mem r).1, (clamp255_mem r).2, (clamp255_mem g).1,
      (clamp255_mem g).2, (clamp255_mem b).1, (clamp255_mem b).2⟩
    simp only [List.getD_eq_getElem?_getD] at hr hg hb
    simp [parseLine, hne, hlen, hr, hg, hb]
  · intro line hne hlen
    simp [parseLine, hne, Nat.not_le.mpr hlen]
  · intro line hne hlen h
    simp only [List.getD_eq_getElem?_getD] at h
    rcases h with h | h | h
    · simp [parseLine, hne, hlen, h]
    · cases h0 : pyInt ((pySplit (pyStrip line))[0]?.getD []) with
      | none => simp [parseLine, hne, hlen, h0]
      | some r => simp [parseLine, hne, hlen, h0, h]
    · cases h0 : pyInt ((pySplit (pyStrip line))[0]?.getD []) with
      | none => simp [parseLine, hne, hlen, h0]
      | some r =>
        cases h1 : pyInt ((pySplit (pyStrip line))[1]?.getD []) with
        | none => simp [parseLine, hne, hlen, h0, h1]
        | some g => simp [parseLine, hne, hlen, h0, h1, h]

/-- C5 witness: the success clause applied to the line `"400 5 6"`, and
the two skip clauses applied to `"10 20"` and `"1 x 3"`. -/
theorem c5_parser_behavior_witness :
    (parseLine ("400 5 6".data) = some (clamp255 400, clamp255 5, clamp255 6)
      ∧ 0 ≤ clamp255 400 ∧ clamp255 400 ≤ 255
      ∧ 0 ≤ clamp255 5 ∧ clamp255 5 ≤ 255
      ∧ 0 ≤ clamp255 6 ∧ clamp255 6 ≤ 255)
    ∧ parseLine ("10 20".data) = none
    ∧ parseLine ("1 x 3".data) = none :=
  ⟨c5_parser_behavior.2.1 ("400 5 6".data) 400 5 6
      (by decide) (by decide) (by decide) (by decide),
    c5_parser_behavior.2.2.1 ("10 20".data) (by decide) (by decide),
    c5_parser_behavior.2.2.2.1 ("1 x 3".data) (by decide) (by decide)
      (Or.inr (Or.inl (by decide)))⟩

/-- C9: a non-blank line with fewer than three whitespace-separated
fields is skipped silently: it contributes no color and raises no
error. -/
theorem c9_short_line_skipped (line : List Char)
    (hne : pyStrip line ≠ []) (hlen : (pySplit (pyStrip line)).length < 3) :
    parseLine line = none := by
  simp [parseLine, hne, Nat.not_le.mpr hlen]

/-- C9 witness: the two-field line `"10 20"` is skipped. -/
theorem c9_short_line_skipped_witness : parseLine ("10 20".data) = none :=
  c9_short_line_skipped ("10 20".data) (by decide) (by decide)

/-- C7: the symbolic-name derivation is total (a Lean function) and
agrees, on every input string, with the spec's description: the
filename's stem with each character uppercased and replaced by `_` when
outside `[A-Z0-9]`, behind the tag `XF_`; `"fire-storm.map"` maps to
`"XF_FIRE_STORM"`. -/
theorem c7_symbolic_name :
    (∀ filename : List Char, name_to_rust_const filename = specSymbolicName filename)
    ∧ name_to_rust_const ("fire-storm.map".data) = "XF_FIRE_STORM".data := by
  constructor
  · intro filename
    simp [name_to_rust_const, specSymbolicName, reSubNonAlnum, List.map_map]
    intro a _
    rfl
  · decide

/-- C8: the display name is the override table's literal value whenever
the lowercased stem is one of its keys, and otherwise the stem with `_`
and `-` turned into spaces and each word title-cased; stem `"firestrm"`
yields `"Fire Storm"` and stem `"my_file"` yields `"My File"`. -/
theorem c8_display_name :
    (∀ (filename : List Char) (v : List Char),
        specialLookup ((pyStem filename).map Char.toLower) = some v →
        name_to_display_name filename = v)
    ∧ (∀ filename : List Char,
        specialLookup ((pyStem filename).map Char.toLower) = none →
        name_to_display_name filename =
          pyTitle (replaceChar '-' ' ' (replaceChar '_' ' ' (pyStem filename))))
    ∧ name_to_display_name ("firestrm".data) = "Fire Storm".data
    ∧ name_to_display_name ("my_file".data) = "My File".data := by
  refine ⟨?_, ?_, by decide, by decide⟩
  · intro filename v h
    simp [name_to_display_name, h]
  · intro filename h
    simp [name_to_display_name, h]

/-- C8 witness: the override clause applied to filename `"chroma"`. -/
theorem c8_display_name_witness :
    name_to_display_name ("chroma".data) = "Chromatic".data :=
  c8_display_name.1 ("chroma".data) ("Chromatic".data) (by decide)

/-- C6: for every list of source files, the emitted palettes and the
registry entries are exactly those of the files whose parsed sequence
has at least 2 colors, in order, and the reported skips are exactly the
other files: a file is emitted if and only if it parses to 2 or more
colors, and a rejected file produces no constant and no registry entry,
only a report. -/
theorem c6_emission_gate (files : List MapFile) :
    (mainLoop files).1 = (files.filter acceptFile).map emitEntry
    ∧ (mainLoop files).2.1 =
        (files.filter acceptFile).map (fun f => name_to_rust_const f.fname)
    ∧ (mainLoop files).2.2 =
        (files.filter (fun f => ! acceptFile f)).map MapFile.fname := by
  induction files with
  | nil => exact ⟨rfl, rfl, rfl⟩
  | cons f rest ih =>
    by_cases h : 2 ≤ (parse_map_file f.contents).length
    · have hacc : acceptFile f = true := by simp [acceptFile, h]
      have hlt : ¬ (parse_map_file f.contents).length < 2 := Nat.not_lt.mpr h
      simp [mainLoop, hlt, hacc, ih.1, ih.2.1, ih.2.2]
    · have hacc : acceptFile f = false := by simp [acceptFile, h]
      have hlt : (parse_map_file f.contents).length < 2 := Nat.not_le.mp h
      simp [mainLoop, hlt, hacc, ih.1, ih.2.1, ih.2.2]

/-- When `n ≠ 1` every loop step succeeds, so the sampling loop returns
the mapped values. -/
theorem sampleLoop_eq_map (colors : List Color) (n : Nat) (hn : n ≠ 1) :
    ∀ l : List Nat, sampleLoop colors n l = some (l.map (interpVal colors n)) := by
  intro l
  induction l with
  | nil => rfl
  | cons i t ih => simp [sampleLoop, interpStep, hn, ih]

/-- Rounding via `round3` always produces an integer multiple of `1/1000`. -/
theorem rounded3_round3 (q : ℚ) : rounded3 (round3 q) := by
  unfold rounded3 round3
  rw [div_mul_cancel₀ _ (by norm_num : (1000 : ℚ) ≠ 0)]
  exact Rat.den_intCast _

/-- Each channel produced by the interpolation loop body is rounded. -/
theorem interpVal_rounded (colors : List Color) (n i : Nat) :
    rounded3 (interpVal colors n i).1 ∧ rounded3 (interpVal colors n i).2.1
    ∧ rounded3 (interpVal colors n i).2.2 := by
  unfold interpVal
  dsimp only
  split
  · exact ⟨rounded3_round3 _, rounded3_round3 _, rounded3_round3 _⟩
  · exact ⟨rounded3_round3 _, rounded3_round3 _, rounded3_round3 _⟩

/-- C2, counterexample: resampling `[(255, 0, 128)]` to `N = 5` does not
yield five copies of `(1.0, 0.0, 0.502)` — the single-color branch skips
`round(·, 3)` and returns the raw `128/255 = 0.50196…` per copy. -/
theorem c2_counterexample :
    sample_colors [(255, 0, 128)] 5 ≠
      some (List.replicate 5 ((1 : ℚ), 0, 502 / 1000)) := by
  decide

/-- C2, amended: outputs of the general (`L ≥ 2`) interpolation path are
rounded to 3 decimal digits (ties to even, CPython's `round`), but the
single-color branch is not: `[(255, 0, 128)]` at `N = 5` yields five
copies of the unrounded `(1, 0, 128/255)`. -/
theorem c2_amended_rounding :
    sample_colors [(255, 0, 128)] 5 =
      some (List.replicate 5 ((1 : ℚ), 0, 128 / 255))
    ∧ ∀ (colors : List Color) (n : Nat) (out : List QColor),
        2 ≤ colors.length → sample_colors colors n = some out →
        ∀ c ∈ out, rounded3 c.1 ∧ rounded3 c.2.1 ∧ rounded3 c.2.2 := by
  refine ⟨by decide, ?_⟩
  intro colors n out hL hout c hc
  match colors, hL with
  | a :: b :: rest, _ =>
    match n with
    | 0 =>
      simp [sample_colors, sampleLoop] at hout
      subst hout
      simp at hc
    | 1 =>
      simp [sample_colors, sampleLoop, interpStep] at hout
    | (m + 2) =>
      rw [sample_colors, sampleLoop_eq_map _ _ (by omega)] at hout
      obtain rfl : (List.range (m + 2)).map (interpVal (a :: b :: rest) (m + 2)) = out :=
        Option.some_injective _ hout
      obtain ⟨i, _, rfl⟩ := List.mem_map.mp hc
      exact interpVal_rounded _ _ _

/-- Truncation by `int()` of a rational that is a natural number. -/
theorem pyTrunc_natCast (k : ℕ) : pyTrunc (k : ℚ) = (k : ℤ) := by
  simp [pyTrunc, Rat.num_natCast, Rat.den_natCast]

/-- Truncation by `int()` of zero. -/
theorem pyTrunc_zero : pyTrunc 0 = 0 := by decide

/-- Reading `getD` at position `length - 1` gives the last element (with the same
default). -/
theorem getD_length_sub_one (l : List Color) (d : Color) :
    l.getD (l.length - 1) d = l.getLastD d := by
  rw [List.getD_eq_getElem?_getD, List.getLastD_eq_getLast?, List.getLast?_eq_getElem?]

/-- At `i = 0` the loop body lands exactly on the first color:
`t = 0`, `idx = 0`, `frac = 0`. -/
theorem interpVal_zero (colors : List Color) (n : Nat) (hL : 2 ≤ colors.length) :
    interpVal colors n 0 = normRound3 (colors.getD 0 (0, 0, 0)) := by
  simp only [interpVal, Nat.cast_zero, zero_div, zero_mul, pyTrunc_zero, Int.toNat_zero,
    sub_zero, mul_zero, add_zero, zero_add, normRound3]
  rw [if_pos (by omega : 1 < colors.length)]

/-- At `i = n - 1` (with `n ≥ 2`) the loop body lands exactly on the last
color: `t = 1`, `idx = length - 1`, `frac = 0`, and the non-extrapolating
`else` branch is taken. -/
theorem interpVal_last (colors : List Color) (n : Nat)
    (hn : 2 ≤ n) (hL : 2 ≤ colors.length) :
    interpVal colors n (n - 1) = normRound3 (colors.getD (colors.length - 1) (0, 0, 0)) := by
  have hne : ((n : ℚ) - 1) ≠ 0 := by
    have h1 : (n : ℚ) ≠ 1 := by exact_mod_cast (by omega : n ≠ 1)
    exact sub_ne_zero.mpr h1
  have ht : ((n - 1 : ℕ) : ℚ) / ((n : ℚ) - 1) = 1 := by
    rw [Nat.cast_sub (by omega : 1 ≤ n), Nat.cast_one]
    exact div_self hne
  have hidxF : ((n - 1 : ℕ) : ℚ) / ((n : ℚ) - 1) * ((colors.length : ℚ) - 1)
      = ((colors.length - 1 : ℕ) : ℚ) := by
    rw [ht, one_mul, Nat.cast_sub (by omega : 1 ≤ colors.length), Nat.cast_one]
  simp only [interpVal, hidxF, pyTrunc_natCast, Int.toNat_natCast, sub_self,
    mul_zero, add_zero, normRound3]
  rw [if_neg (by omega : ¬ (colors.length - 1 + 1 < colors.length))]

/-- C3: for every `N ≥ 2` and every sequence of length `L ≥ 2`, the first
output is the first color divided by 255 and rounded to 3 decimals, and
the last output is the last color divided by 255 and rounded to 3
decimals. -/
theorem c3_endpoints (colors : List Color) (n : Nat) (out : List QColor)
    (hn : 2 ≤ n) (hL : 2 ≤ colors.length)
    (hout : sample_colors colors n = some out) :
    out[0]? = some (normRound3 (colors.getD 0 (0, 0, 0)))
    ∧ out[n - 1]? = some (normRound3 (colors.getLastD (0, 0, 0))) := by
  match colors, hL with
  | a :: b :: rest, _ =>
    have hL2 : 2 ≤ (a :: b :: rest).length := by
      simp only [List.length_cons]
      omega
    rw [sample_colors, sampleLoop_eq_map _ _ (by omega)] at hout
    obtain rfl : (List.range n).map (interpVal (a :: b :: rest) n) = out :=
      Option.some_injective _ hout
    constructor
    · rw [List.getElem?_map, List.getElem?_range (by omega : 0 < n)]
      simp only [Option.map_some']
      rw [interpVal_zero _ _ hL2]
    · rw [List.getElem?_map, List.getElem?_range (by omega : n - 1 < n)]
      simp only [Option.map_some']
      rw [interpVal_last _ _ hn hL2, getD_length_sub_one]

/-- C3 witness: resampling `[(0,0,0), (255,255,255)]` to `N = 2` keeps
both endpoints. -/
theorem c3_endpoints_witness :
    ([((0 : ℚ), 0, 0), ((1 : ℚ), 1, 1)] : List QColor)[0]? =
      some (normRound3 (([(0, 0, 0), (255, 255, 255)] : List Color).getD 0 (0, 0, 0)))
    ∧ ([((0 : ℚ), 0, 0), ((1 : ℚ), 1, 1)] : List QColor)[2 - 1]? =
      some (normRound3 (([(0, 0, 0), (255, 255, 255)] : List Color).getLastD (0, 0, 0))) :=
  c3_endpoints [(0, 0, 0), (255, 255, 255)] 2 [((0 : ℚ), 0, 0), ((1 : ℚ), 1, 1)]
    (by decide) (by decide) (by decide)

/-- C2 witness: the rounding clause applied to the concrete resampling of
`[(0,0,0), (255,255,255)]` to `N = 2`, at its second output `(1,1,1)`. -/
theorem c2_amended_rounding_witness :
    rounded3 (((1 : ℚ), (1 : ℚ), (1 : ℚ)) : QColor).1
    ∧ rounded3 (((1 : ℚ), (1 : ℚ), (1 : ℚ)) : QColor).2.1
    ∧ rounded3 (((1 : ℚ), (1 : ℚ), (1 : ℚ)) : QColor).2.2 :=
  c2_amended_rounding.2 [(0, 0, 0), (255, 255, 255)] 2
    [((0 : ℚ), 0, 0), ((1 : ℚ), 1, 1)] (by decide) (by decide)
    ((1 : ℚ), (1 : ℚ), (1 : ℚ)) (by decide)

end XfMaps

